import Mathlib

/-!
Verification development for the quota-aware fetch & commit orchestrator.

The definitions below are shallow embeddings of the Python sources:
* `src/_get_base_info_yt_api.py` — credential pool, key rotation, classified
  fetch client, comment pagination;
* `src/main_yt_api.py` / `src/main_yt_dlp.py` — batch scheduler, checkpoint,
  batch-number scan;
* `src/_huggingface_uploader.py` — commit-batching uploader.
Machine state (module-level globals guarded by a lock) is made explicit as a
`PoolState` value threaded through the operations.
-/

namespace Dop

/-- State of the module-level key-rotation globals in
`_get_base_info_yt_api.py`: the list of API keys, `_current_key_index`,
and `_exhausted_keys`. -/
structure PoolState where
  keys : List String
  current : Nat
  exhausted : Finset Nat
deriving DecidableEq

/-- The scan loop of `_switch_to_next_key`: `for i in range(len(api_keys)):
if i not in _exhausted_keys: ...`. `start` is the index currently tested
and `fuel` the number of loop iterations left (`n - start` at the call
site), so the scan visits exactly the indices of `range(n)` in order and
returns the first one not in `ex`. -/
def findAvailAux (ex : Finset Nat) (start : Nat) : Nat → Option Nat
  | 0 => none
  | fuel + 1 =>
      if start ∈ ex then findAvailAux ex (start + 1) fuel else some start

/-- The full `for i in range(n)` scan for the first index not in `ex`. -/
def findAvailable (ex : Finset Nat) (n : Nat) : Option Nat :=
  findAvailAux ex 0 n

/-- Embedding of `_switch_to_next_key`: mark the current key exhausted, then scan the pool
from index 0 for the first non-exhausted index; return the updated state and
whether a switch happened (`True` / `False` in the source). -/
def switch_to_next_key (p : PoolState) : PoolState × Bool :=
  let ex := insert p.current p.exhausted
  match findAvailable ex p.keys.length with
  | some i => ({ p with current := i, exhausted := ex }, true)
  | none => ({ p with exhausted := ex }, false)

/-- Embedding of `get_youtube_service`: raises when there are no keys, or when
`_current_key_index >= len(api_keys)`; otherwise builds a service bound to
`api_keys[_current_key_index]` (modelled as returning the key itself). -/
def get_youtube_service (p : PoolState) : Except String String :=
  if p.keys.isEmpty then Except.error "No API keys available"
  else if p.keys.length ≤ p.current then Except.error "All API keys are exhausted"
  else Except.ok (p.keys.getD p.current "")

/-- Embedding of `are_all_keys_exhausted`:
`len(_exhausted_keys) >= len(api_keys) if api_keys else True`. -/
def are_all_keys_exhausted (p : PoolState) : Bool :=
  if p.keys.isEmpty then true else p.keys.length ≤ p.exhausted.card

/-! ### Classified fetch client (`fetch_from_youtube_api`) -/

/-- One observable outcome of the primary `videos.list` attempt inside
`fetch_from_youtube_api`: a successful response (carrying whether its
`items` list is nonempty), an `HttpError` classified as a quota error by
`_is_quota_error`, or any other (transient) error. -/
inductive FetchOutcome
  | ok (hasItems : Bool)
  | quotaErr
  | transientErr
deriving DecidableEq

/-- Result of `fetch_from_youtube_api` at its public interface: a populated
metadata dictionary, or the empty dictionary `{}`. -/
inductive FetchRes
  | populated
  | empty
deriving DecidableEq

/-- Embedding of `fetch_from_youtube_api video_id service retries backoff_sec`, driven by
the environment trace `outcomes` (one entry per attempt of the primary
request). Mirrors the source's error handling:
* success with empty `items` → return `{}`;
* success with items → populated result;
* quota error → `_switch_to_next_key()`; on `True` re-issue the whole fetch
  with the same `retries` and `backoff_sec`, on `False` return `{}`;
* other error → if `retries > 0`, `time.sleep(backoff_sec)` and retry with
  `retries - 1` and `min(2.0, backoff_sec * 2)`, else return `{}`.
Returns the result, the list of sleep durations performed, and the pool
state after the call. An exhausted trace behaves as a final failure. -/
def fetch_from_youtube_api :
    List FetchOutcome → PoolState → Nat → ℚ → FetchRes × List ℚ × PoolState
  | [], p, _, _ => (FetchRes.empty, [], p)
  | FetchOutcome.ok hasItems :: _, p, _, _ =>
      (if hasItems then FetchRes.populated else FetchRes.empty, [], p)
  | FetchOutcome.quotaErr :: rest, p, r, b =>
      match switch_to_next_key p with
      | (p', true) => fetch_from_youtube_api rest p' r b
      | (p', false) => (FetchRes.empty, [], p')
  | FetchOutcome.transientErr :: rest, p, r, b =>
      if r = 0 then (FetchRes.empty, [], p)
      else
        let out := fetch_from_youtube_api rest p (r - 1) (min 2 (2 * b))
        (out.1, b :: out.2.1, out.2.2)

/-- The backoff schedule generated by the transient-retry path: the sleep
before each retry, starting at `b` and updated by `min(2.0, b * 2)`. -/
def backoffSeq : ℚ → Nat → List ℚ
  | _, 0 => []
  | b, k + 1 => b :: backoffSeq (min 2 (2 * b)) k

/-! ### Batch scheduler evaluate step (`main` in `main_yt_api.py`) -/

/-- Whether the scheduler loop continues to the next batch or halts
(`break`). -/
inductive SchedAction
  | cont
  | halt
deriving DecidableEq

/-- Result of one post-batch evaluation: pool state, the consecutive
empty-batch counter, the loop decision, and how many forced rotation
attempts (`force_switch_key()` calls) were made. -/
structure EvalOut where
  pool : PoolState
  counter : Nat
  action : SchedAction
  rotations : Nat
deriving DecidableEq

/-- The stall-detection block of `main` (`main_yt_api.py`): on a
zero-success batch increment `empty_batches_count`; at
`MAX_EMPTY_BATCHES = 3` either halt (pool fully exhausted), or call
`force_switch_key()` once — resetting the counter on success and halting on
failure. A batch with successes resets the counter. -/
def evaluateBatch (p : PoolState) (counter successCount : Nat) : EvalOut :=
  if successCount = 0 then
    let c := counter + 1
    if 3 ≤ c then
      if are_all_keys_exhausted p then ⟨p, c, SchedAction.halt, 0⟩
      else
        match switch_to_next_key p with
        | (p', true) => ⟨p', 0, SchedAction.cont, 1⟩
        | (p', false) => ⟨p', c, SchedAction.halt, 1⟩
    else ⟨p, c, SchedAction.cont, 0⟩
  else ⟨p, 0, SchedAction.cont, 0⟩

/-- Folding `evaluateBatch` over a run's per-batch success counts, starting
from pool `p` and counter `c`. Returns final pool, final counter, whether
the run halted early, and the total number of forced rotation attempts. -/
def runSched : PoolState → Nat → List Nat → PoolState × Nat × Bool × Nat
  | p, c, [] => (p, c, false, 0)
  | p, c, s :: rest =>
      let e := evaluateBatch p c s
      match e.action with
      | SchedAction.halt => (e.pool, e.counter, true, e.rotations)
      | SchedAction.cont =>
          let out := runSched e.pool e.counter rest
          (out.1, out.2.1, out.2.2.1, e.rotations + out.2.2.2)

/-! ### Checkpoint (`save_progress` / `load_progress` in `main_yt_api.py`) -/

/-- The JSON payload written by `save_progress`:
`{"processed_urls": sorted(list(processed)), "count": len(processed)}`. -/
structure ProgressPayload where
  processed_urls : List String
  count : Nat
deriving DecidableEq

/-- Embedding of `save_progress`: serialize the processed set as a sorted list plus
its count. -/
def save_progress (processed : Finset String) : ProgressPayload :=
  ⟨processed.sort (· ≤ ·), processed.card⟩

/-- Embedding of `load_progress`: read back `processed_urls` and rebuild the set
(`set(urls)`). -/
def load_progress (payload : ProgressPayload) : Finset String :=
  payload.processed_urls.toFinset

/-! ### Batch-number scan (`_scan_batches_in_dir` in `main_yt_api.py`,
`get_existing_batches_numbers` in `main_yt_dlp.py`) -/

/-- Strip an exact leading character sequence, as the literal part
`batch_` of the pattern consumes the filename. -/
def stripLit : List Char → List Char → Option (List Char)
  | [], s => some s
  | _ :: _, [] => none
  | c :: cs, x :: xs => if c = x then stripLit cs xs else none

/-- Consume a maximal run of the character `d`, as the regex atom `d+`
does (greedy; since the following pattern character is a backslash, no
backtracking into the run can ever succeed). -/
def takeDs : List Char → Nat × List Char
  | [] => (0, [])
  | c :: rest =>
      if c = 'd' then
        let out := takeDs rest
        (out.1 + 1, out.2)
      else (0, c :: rest)

/-- Embedding of `re.match(r"batch_(\\d+)\\.json$", fname)`. Inside a raw string the
pattern's `\\d` is a doubled backslash followed by `d`, so the compiled
regex is: literal `batch_`, then the group `(` backslash `d+` `)`, then a
literal backslash, any character but a newline, and `json` at the end.
Returns `group(1)` (a backslash followed by the `d` run) on a match. -/
def matchBatchPattern (fname : List Char) : Option (List Char) :=
  match stripLit "batch_".toList fname with
  | none => none
  | some s1 =>
      match s1 with
      | [] => none
      | c1 :: s2 =>
          if c1 = '\\' then
            match takeDs s2 with
            | (0, _) => none
            | (k + 1, s3) =>
                match s3 with
                | c2 :: c :: s4 =>
                    if c2 = '\\' ∧ c ≠ '\n' ∧ s4 = "json".toList then
                      some ('\\' :: List.replicate (k + 1) 'd')
                    else none
                | _ => none
          else none

/-- Embedding of `int(text)` for the captured group: succeeds only on a (nonempty) digit
string; the exception raised otherwise is caught by the scanner's
`except Exception: continue`. -/
def parseInt? (s : List Char) : Option Nat :=
  if s ≠ [] ∧ s.all Char.isDigit then
    some (s.foldl (fun acc c => acc * 10 + (c.toNat - '0'.toNat)) 0)
  else none

/-- Embedding of `_scan_batches_in_dir`: fold over the directory listing, keeping the
largest batch index whose filename matches the pattern and whose captured
group parses as an integer; `0` when nothing qualifies. -/
def scan_batches_in_dir (files : List String) : Nat :=
  files.foldl
    (fun maxIdx fname =>
      match matchBatchPattern fname.toList with
      | some g =>
          match parseInt? g with
          | some idx => if maxIdx < idx then idx else maxIdx
          | none => maxIdx
      | none => maxIdx)
    0

/-- The filename filter and number extraction of
`get_existing_batches_numbers` (`main_yt_dlp.py`):
`int(file.split("_")[1].split(".")[0])` over files named `batch_*.json`. -/
def dlpBatchNumbers (files : List String) : List Nat :=
  (files.filter fun f => f.startsWith "batch_" ∧ f.endsWith ".json").map
    fun f =>
      ((((f.splitOn "_").getD 1 "").splitOn ".").getD 0 "").toNat!

/-- Embedding of `get_existing_batches_numbers`: `max([...])` over the extracted
numbers — a `ValueError` (modelled as `Except.error`) when the list is
empty, since Python's `max` rejects an empty sequence. -/
def get_existing_batches_numbers (files : List String) : Except String Nat :=
  match dlpBatchNumbers files with
  | [] => Except.error "ValueError: max() arg is an empty sequence"
  | n :: ns => Except.ok (ns.foldl max n)

/-- Embedding of `batchify`: partition a list into consecutive slices of `batchSize`
(16 in both schedulers); `lst[i:i+batch_size]` for `i = 0, 16, 32, ...`. -/
def batchify (batchSize : Nat) (h : 0 < batchSize) (lst : List α) :
    List (List α) :=
  if lst.isEmpty then []
  else lst.take batchSize :: batchify batchSize h (lst.drop batchSize)
termination_by lst.length
decreasing_by
  simp only [List.length_drop]
  rename_i hne
  have : lst.length ≠ 0 := by
    intro hz
    exact hne (by simp [List.isEmpty_iff, List.length_eq_zero.mp hz])
  omega

/-! ### Per-batch artifact write (`main` in `main_yt_api.py` and in
`main_yt_dlp.py`) -/

/-- One collected worker result: the work item's URL and whether the
fetched `data` dictionary is nonempty (truthy). -/
structure ItemRes where
  url : String
  ok : Bool
deriving DecidableEq

/-- Embedding of `success_count = sum(1 for _c,_u,_vid,d in results if d)`. -/
def successCount (results : List ItemRes) : Nat :=
  (results.filter fun r => r.ok).length

/-- The per-batch artifact payload (batch number, declared size, success
count; the metadata mapping is elided). -/
structure BatchArtifact where
  batch : Nat
  size : Nat
  success : Nat
deriving DecidableEq

/-- The `main_yt_api.py` batch postlude: write `batch_<n>.json` only when
`success_count > 0`; a fully failed batch produces no artifact. -/
def ytApiBatchArtifact (batchNum : Nat) (results : List ItemRes) :
    Option BatchArtifact :=
  if 0 < successCount results then
    some ⟨batchNum, results.length, successCount results⟩
  else none

/-- The `main_yt_dlp.py` batch postlude: the artifact file is written
unconditionally, with no success-count guard. -/
def ytDlpBatchArtifact (batchNum : Nat) (results : List ItemRes) :
    Option BatchArtifact :=
  some ⟨batchNum, results.length, successCount results⟩

/-- The checkpoint update of the collect phase (`main_yt_api.py`): for each
completed worker result with nonempty data, add its URL to the processed
set (and persist). Independent of the artifact-write decision. -/
def collectProgress (processed : Finset String) (results : List ItemRes) :
    Finset String :=
  results.foldl (fun acc r => if r.ok then insert r.url acc else acc)
    processed

/-! ### Commit-batching uploader (`_huggingface_uploader.py`) -/

/-- Embedding of `HuggingFaceUploader.MAX_FILES_PER_COMMIT`. -/
def MAX_FILES_PER_COMMIT : Nat := 300

/-- The chunking loop of `upload_metadata_batch`:
`for i in range(0, len(files_to_upload), MAX_FILES_PER_COMMIT):
chunk = files_to_upload[i:i + MAX_FILES_PER_COMMIT]`. -/
def chunkByCap (l : List α) : List (List α) :=
  if l.isEmpty then []
  else l.take MAX_FILES_PER_COMMIT :: chunkByCap (l.drop MAX_FILES_PER_COMMIT)
termination_by l.length
decreasing_by
  simp only [List.length_drop]
  rename_i hne
  have : l.length ≠ 0 := by
    intro hz
    exact hne (by simp [List.isEmpty_iff, List.length_eq_zero.mp hz])
  simp [MAX_FILES_PER_COMMIT]
  omega

/-- Embedding of `upload_metadata_batch`: an empty list yields no commit; a list within
`MAX_FILES_PER_COMMIT` is committed whole; a larger list is cut into
cap-sized chunks, each passed to `_upload_metadata_batch_single`. -/
def upload_metadata_batch (files : List α) : List (List α) :=
  if files.isEmpty then []
  else if MAX_FILES_PER_COMMIT < files.length then chunkByCap files
  else [files]

/-- The commit attempts issued by `_upload_metadata_batch_single` on a
chunk when every bulk `upload_folder` call is rejected with the
file-count-limit error (the worst case for termination): the rejected bulk
attempt itself, then — when the chunk holds more than 50 files — the
recursive attempts on the two halves `files[:mid]` and `files[mid:]` with
`mid = len // 2`; at 50 files or fewer, one `upload_metadata` commit per
record. -/
def singleAttemptsAllRejected (files : List α) : List (List α) :=
  files ::
    (if _h : 50 < files.length then
      let mid := files.length / 2
      singleAttemptsAllRejected (files.take mid) ++
        singleAttemptsAllRejected (files.drop mid)
    else files.map fun f => [f])
termination_by files.length
decreasing_by
  · simp only [List.length_take]
    omega
  · simp only [List.length_drop]
    omega

/-! ### Comment pagination (`_fetch_top_comments`) -/

/-- A fetched comment record; only its provenance (top-level vs reply)
matters to the counting claims, the field mapping being out of scope. -/
inductive Comment
  | topLevel
  | reply
deriving DecidableEq

/-- One element of a `commentThreads.list` response's `items`: its
`totalReplyCount` and the id of its top-level comment (used as
`parentId` for the reply sub-fetch). -/
structure ThreadItem where
  replyCount : Nat
  topId : Option String
deriving DecidableEq

/-- A `commentThreads.list` response page. -/
structure ThreadPage where
  items : List ThreadItem
  nextPageToken : Option Nat
deriving DecidableEq

/-- A `comments.list` (replies) response page; each item appends one
comment record. -/
structure RepliesPage where
  items : List Unit
  nextPageToken : Option Nat
deriving DecidableEq

/-- The upstream service: responses to `commentThreads.list` and
`comments.list`, as functions of the `maxResults` argument and the page
token (plus the `parentId` for replies). -/
structure CommentsService where
  threadPage : Nat → Option Nat → ThreadPage
  repliesPage : Nat → Option String → Option Nat → RepliesPage

/-- The body of the response-item loops: append each fetched record, and
`break` as soon as `len(comments) >= max_count` — the length check runs
after each append, never before the first one. -/
def appendUpTo (maxCount : Nat) (acc : List Comment) :
    List Comment → List Comment
  | [] => acc
  | c :: rest =>
      let acc' := acc ++ [c]
      if maxCount ≤ acc'.length then acc' else appendUpTo maxCount acc' rest

/-- The reply-pagination loop (`while len(comments) < max_count and
parent_id`): fetch a replies page (one quota unit), append its items up to
the cap, stop when the page has no continuation token or no items. The
state is `(comments, quota_used)`; `fuel` bounds the page chain. -/
def replyLoop (svc : CommentsService) (maxCount : Nat)
    (parent : Option String) : Option Nat → List Comment × Nat → Nat →
    List Comment × Nat
  | _, st, 0 => st
  | tok, st, fuel + 1 =>
      if st.1.length < maxCount ∧ parent ≠ none then
        let page := svc.repliesPage (min 100 (maxCount - st.1.length)) parent tok
        let quota := st.2 + 1
        let comments := appendUpTo maxCount st.1 (page.items.map fun _ => Comment.reply)
        if page.nextPageToken = none ∨ page.items.isEmpty then (comments, quota)
        else replyLoop svc maxCount parent page.nextPageToken (comments, quota) fuel
      else st

/-- The `for it in items` loop of `_fetch_top_comments`: append the
top-level comment of each thread, `break` once the cap is reached, and —
when the thread reports replies and the cap is not yet reached — run the
reply-pagination loop before moving to the next thread. The cap is *not*
re-checked between the reply loop's exit and the next thread's append. -/
def itemsLoop (svc : CommentsService) (maxCount : Nat) (fuel : Nat) :
    List Comment × Nat → List ThreadItem → List Comment × Nat
  | st, [] => st
  | st, it :: rest =>
      let st1 := (st.1 ++ [Comment.topLevel], st.2)
      if maxCount ≤ st1.1.length then st1
      else
        let st2 :=
          if 0 < it.replyCount ∧ st1.1.length < maxCount then
            replyLoop svc maxCount it.topId none st1 fuel
          else st1
        itemsLoop svc maxCount fuel st2 rest

/-- The outer `while len(comments) < max_count` pagination loop over
`commentThreads.list` pages: fetch a page (one quota unit), run the item
loop, stop when the page has no continuation token or no items. -/
def outerLoop (svc : CommentsService) (maxCount : Nat) :
    Option Nat → List Comment × Nat → Nat → List Comment × Nat
  | _, st, 0 => st
  | tok, st, fuel + 1 =>
      if st.1.length < maxCount then
        let page := svc.threadPage (min 100 (maxCount - st.1.length)) tok
        let st1 := (st.1, st.2 + 1)
        let st2 := itemsLoop svc maxCount fuel st1 page.items
        if page.nextPageToken = none ∨ page.items.isEmpty then st2
        else outerLoop svc maxCount page.nextPageToken st2 fuel
      else st

/-- Embedding of `_fetch_top_comments video_id service max_count`: immediately returns
the empty list when `max_count <= 0` (no request and no quota); otherwise
pages through comment threads and replies. Returns the collected comments
and the quota units consumed. `max_count` is a Python `int`, so it ranges
over `ℤ`. -/
def fetch_top_comments (svc : CommentsService) (maxCount : Int)
    (fuel : Nat) : List Comment × Nat :=
  if maxCount ≤ 0 then ([], 0)
  else outerLoop svc maxCount.toNat none ([], 0) fuel

/-! ## Theorems -/

/-- If the range scan finds an index, it is the first non-exhausted one. -/
lemma findAvailAux_some (ex : Finset Nat) :
    ∀ fuel start j, findAvailAux ex start fuel = some j →
      start ≤ j ∧ j < start + fuel ∧ j ∉ ex ∧
        ∀ m, start ≤ m → m < j → m ∈ ex := by
  intro fuel
  induction fuel with
  | zero => intro start j h; simp [findAvailAux] at h
  | succ fuel ih =>
    intro start j h
    rw [findAvailAux] at h
    by_cases hst : start ∈ ex
    · rw [if_pos hst] at h
      obtain ⟨h1, h2, h3, h4⟩ := ih (start + 1) j h
      refine ⟨by omega, by omega, h3, fun m hm1 hm2 => ?_⟩
      rcases Nat.eq_or_lt_of_le hm1 with rfl | hlt
      · exact hst
      · exact h4 m (by omega) hm2
    · rw [if_neg hst] at h
      injection h with h
      subst h
      exact ⟨le_refl _, by omega, hst, fun m hm1 hm2 => by omega⟩

/-- If the range scan finds nothing, every scanned index is exhausted. -/
lemma findAvailAux_none (ex : Finset Nat) :
    ∀ fuel start, findAvailAux ex start fuel = none →
      ∀ m, start ≤ m → m < start + fuel → m ∈ ex := by
  intro fuel
  induction fuel with
  | zero => intro start _ m hm1 hm2; omega
  | succ fuel ih =>
    intro start h m hm1 hm2
    rw [findAvailAux] at h
    by_cases hst : start ∈ ex
    · rw [if_pos hst] at h
      rcases Nat.eq_or_lt_of_le hm1 with rfl | hlt
      · exact hst
      · exact ih (start + 1) h m (by omega) (by omega)
    · rw [if_neg hst] at h
      exact absurd h (by simp)

/-- C6: `_switch_to_next_key` marks the active index exhausted (the
exhausted set only ever grows), then picks the smallest index of
`[0, pool size)` outside the exhausted set as the new active index and
returns `True`; when no such index exists it returns `False` and leaves the
active index unchanged. -/
theorem c6_mark_and_advance (p : PoolState) :
    (switch_to_next_key p).1.exhausted = insert p.current p.exhausted ∧
    p.exhausted ⊆ (switch_to_next_key p).1.exhausted ∧
    ((switch_to_next_key p).2 = true →
      (switch_to_next_key p).1.current < p.keys.length ∧
      (switch_to_next_key p).1.current ∉ insert p.current p.exhausted ∧
      ∀ j < (switch_to_next_key p).1.current, j ∈ insert p.current p.exhausted) ∧
    ((switch_to_next_key p).2 = false →
      (∀ i < p.keys.length, i ∈ insert p.current p.exhausted) ∧
      (switch_to_next_key p).1.current = p.current) := by
  cases hfa : findAvailable (insert p.current p.exhausted) p.keys.length with
  | some i =>
    have hs : switch_to_next_key p =
        ({ p with current := i, exhausted := insert p.current p.exhausted },
          true) := by
      simp only [switch_to_next_key, hfa]
    obtain ⟨_, h2, h3, h4⟩ :=
      findAvailAux_some (insert p.current p.exhausted) p.keys.length 0 i hfa
    rw [hs]
    refine ⟨rfl, fun x hx => Finset.mem_insert_of_mem hx, ?_, ?_⟩
    · intro _
      exact ⟨by simpa using h2, h3, fun j hj => h4 j (Nat.zero_le j) hj⟩
    · intro h; simp at h
  | none =>
    have hs : switch_to_next_key p =
        ({ p with exhausted := insert p.current p.exhausted }, false) := by
      simp only [switch_to_next_key, hfa]
    have hall := findAvailAux_none (insert p.current p.exhausted) p.keys.length 0 hfa
    rw [hs]
    refine ⟨rfl, fun x hx => Finset.mem_insert_of_mem hx, ?_, ?_⟩
    · intro h; simp at h
    · intro _
      exact ⟨fun i hi => hall i (Nat.zero_le i) (by simpa using hi), rfl⟩

/-- Witness for C6 at a concrete pool: with keys `["a", "b"]`, active
index 0 and nothing exhausted, a switch lands on index 1. -/
theorem c6_mark_and_advance_witness :
    (switch_to_next_key ⟨["a", "b"], 0, ∅⟩).1.current = 1 := by
  obtain ⟨h1, h2, _⟩ :=
    (c6_mark_and_advance ⟨["a", "b"], 0, ∅⟩).2.2.1 (by decide)
  have hne : (switch_to_next_key ⟨["a", "b"], 0, ∅⟩).1.current ≠ 0 := by
    intro h0
    exact h2 (by simp [h0])
  simp only [List.length_cons, List.length_nil] at h1
  omega

/-- C1: after the whole pool has been marked exhausted (here: one key, one
`QuotaExceeded` classification), `are_all_keys_exhausted()` is `True` —
but `get_youtube_service()` still returns a service bound to the last
active key instead of raising: `_current_key_index` always stays below the
pool size, so the `"All API keys are exhausted"` branch can never fire. -/
theorem c1_exhausted_pool_still_served :
    are_all_keys_exhausted (switch_to_next_key ⟨["k0"], 0, ∅⟩).1 = true ∧
    (switch_to_next_key ⟨["k0"], 0, ∅⟩).2 = false ∧
    get_youtube_service (switch_to_next_key ⟨["k0"], 0, ∅⟩).1 =
      Except.ok "k0" :=
  ⟨rfl, rfl, rfl⟩

/-- C3: the stall-detection step. A batch with at least one success resets
the consecutive-empty counter; below the threshold an empty batch only
increments it; at three consecutive empty batches exactly one evaluation
fires with: halt when the pool is already fully exhausted (no rotation
call), otherwise exactly one forced rotation attempt — on success the
counter resets and the run continues, on failure the run halts. The
run-level corollaries instantiate this on whole outcome sequences. -/
theorem c3_stall_detection :
    (∀ p c s, s ≠ 0 → evaluateBatch p c s = ⟨p, 0, SchedAction.cont, 0⟩) ∧
    (∀ p c, c + 1 < 3 →
      evaluateBatch p c 0 = ⟨p, c + 1, SchedAction.cont, 0⟩) ∧
    (∀ p c, 3 ≤ c + 1 → are_all_keys_exhausted p = true →
      evaluateBatch p c 0 = ⟨p, c + 1, SchedAction.halt, 0⟩) ∧
    (∀ p c, 3 ≤ c + 1 → are_all_keys_exhausted p = false →
      (evaluateBatch p c 0).rotations = 1 ∧
      ((switch_to_next_key p).2 = true →
        evaluateBatch p c 0 =
          ⟨(switch_to_next_key p).1, 0, SchedAction.cont, 1⟩) ∧
      ((switch_to_next_key p).2 = false →
        evaluateBatch p c 0 =
          ⟨(switch_to_next_key p).1, c + 1, SchedAction.halt, 1⟩)) ∧
    (∀ p, runSched p 0 [0, 0] = (p, 2, false, 0)) ∧
    (∀ p, are_all_keys_exhausted p = true →
      runSched p 0 [0, 0, 0] = (p, 3, true, 0)) ∧
    (∀ p, are_all_keys_exhausted p = false →
      (runSched p 0 [0, 0, 0]).2.2.2 = 1) := by
  have hstep : ∀ p c s, s ≠ 0 →
      evaluateBatch p c s = ⟨p, 0, SchedAction.cont, 0⟩ := by
    intro p c s hs
    simp [evaluateBatch, hs]
  have hinc : ∀ p c, c + 1 < 3 →
      evaluateBatch p c 0 = ⟨p, c + 1, SchedAction.cont, 0⟩ := by
    intro p c hc
    simp [evaluateBatch]
    omega
  have hexh : ∀ p c, 3 ≤ c + 1 → are_all_keys_exhausted p = true →
      evaluateBatch p c 0 = ⟨p, c + 1, SchedAction.halt, 0⟩ := by
    intro p c hc hex
    simp [evaluateBatch, hc, hex]
  have hrot : ∀ p c, 3 ≤ c + 1 → are_all_keys_exhausted p = false →
      (evaluateBatch p c 0).rotations = 1 ∧
      ((switch_to_next_key p).2 = true →
        evaluateBatch p c 0 =
          ⟨(switch_to_next_key p).1, 0, SchedAction.cont, 1⟩) ∧
      ((switch_to_next_key p).2 = false →
        evaluateBatch p c 0 =
          ⟨(switch_to_next_key p).1, c + 1, SchedAction.halt, 1⟩) := by
    intro p c hc hex
    cases hsw : switch_to_next_key p with
    | mk p' ok =>
      cases ok with
      | true =>
        refine ⟨?_, fun _ => ?_, fun h => by simp at h⟩ <;>
          simp [evaluateBatch, hc, hex, hsw]
      | false =>
        refine ⟨?_, fun h => by simp at h, fun _ => ?_⟩ <;>
          simp [evaluateBatch, hc, hex, hsw]
  refine ⟨hstep, hinc, hexh, hrot, ?_, ?_, ?_⟩
  · intro p
    simp [runSched, hinc p 0 (by omega), hinc p 1 (by omega)]
  · intro p hex
    simp [runSched, hinc p 0 (by omega), hinc p 1 (by omega),
      hexh p 2 (by omega) hex]
  · intro p hex
    cases hsw : (switch_to_next_key p).2 with
    | true =>
      have h3 := ((hrot p 2 (by omega) hex).2.1) hsw
      simp [runSched, hinc p 0 (by omega), hinc p 1 (by omega), h3]
    | false =>
      have h3 := ((hrot p 2 (by omega) hex).2.2) hsw
      simp [runSched, hinc p 0 (by omega), hinc p 1 (by omega), h3]

/-- Witness for C3: a pool of one already-exhausted key halts at the third
consecutive empty batch without a rotation attempt, and a two-key pool
rotates exactly once. -/
theorem c3_stall_detection_witness :
    evaluateBatch ⟨["a"], 0, {0}⟩ 2 0 =
      ⟨⟨["a"], 0, {0}⟩, 3, SchedAction.halt, 0⟩ ∧
    (runSched ⟨["a", "b"], 0, ∅⟩ 0 [0, 0, 0]).2.2.2 = 1 :=
  ⟨c3_stall_detection.2.2.1 ⟨["a"], 0, {0}⟩ 2 (by omega) (by decide),
    c3_stall_detection.2.2.2.2.2.2 ⟨["a", "b"], 0, ∅⟩ (by decide)⟩

/-- Unfolding of `fetch_from_youtube_api` at a successful primary
request. -/
lemma fetch_ok_cons (rest : List FetchOutcome) (p : PoolState) (r : Nat)
    (b : ℚ) (hasItems : Bool) :
    fetch_from_youtube_api (FetchOutcome.ok hasItems :: rest) p r b =
      (if hasItems then FetchRes.populated else FetchRes.empty, [], p) := rfl

/-- Unfolding of `fetch_from_youtube_api` at a quota-classified error. -/
lemma fetch_quota_cons (rest : List FetchOutcome) (p : PoolState) (r : Nat)
    (b : ℚ) :
    fetch_from_youtube_api (FetchOutcome.quotaErr :: rest) p r b =
      match switch_to_next_key p with
      | (p', true) => fetch_from_youtube_api rest p' r b
      | (p', false) => (FetchRes.empty, [], p') := rfl

/-- Unfolding of `fetch_from_youtube_api` at a transient error. -/
lemma fetch_transient_cons (rest : List FetchOutcome) (p : PoolState)
    (r : Nat) (b : ℚ) :
    fetch_from_youtube_api (FetchOutcome.transientErr :: rest) p r b =
      if r = 0 then (FetchRes.empty, [], p)
      else
        ((fetch_from_youtube_api rest p (r - 1) (min 2 (2 * b))).1,
          b :: (fetch_from_youtube_api rest p (r - 1) (min 2 (2 * b))).2.1,
          (fetch_from_youtube_api rest p (r - 1) (min 2 (2 * b))).2.2) := rfl

/-- A trace of nothing but transient failures exhausts the `r`-retry budget:
empty result, sleeps following the backoff schedule, pool untouched. -/
lemma fetch_transient_exhausts (p : PoolState) (r : Nat) (b : ℚ) :
    fetch_from_youtube_api (List.replicate (r + 1) FetchOutcome.transientErr)
        p r b = (FetchRes.empty, backoffSeq b r, p) := by
  induction r generalizing p b with
  | zero => simp [fetch_from_youtube_api, backoffSeq]
  | succ r ih =>
    rw [List.replicate_succ, fetch_transient_cons]
    simp only [Nat.succ_ne_zero, if_false, Nat.add_sub_cancel]
    rw [ih]
    simp [backoffSeq]

/-- C4: the transient-retry policy of `fetch_from_youtube_api`. A trace of
nothing but transient failures exhausts the default-2 (in general `r`)
retry budget and yields the empty result, sleeping exactly the backoff
schedule; the number of backoff sleeps never exceeds the budget on any
trace; the schedule starts at 0.5 s and doubles, capped at 2.0 s; and a
successful quota rotation re-issues the fetch with the budget and backoff
untouched (and no sleep). -/
theorem c4_transient_retry_policy :
    (∀ p r b,
      fetch_from_youtube_api (List.replicate (r + 1) FetchOutcome.transientErr)
          p r b = (FetchRes.empty, backoffSeq b r, p)) ∧
    (∀ outcomes p r b,
      (fetch_from_youtube_api outcomes p r b).2.1.length ≤ r) ∧
    backoffSeq (1 / 2) 4 = [1 / 2, 1, 2, 2] ∧
    (∀ b k, b ≤ 2 → ∀ x ∈ backoffSeq b k, x ≤ 2) ∧
    (∀ rest p r b p', switch_to_next_key p = (p', true) →
      fetch_from_youtube_api (FetchOutcome.quotaErr :: rest) p r b =
        fetch_from_youtube_api rest p' r b) := by
  refine ⟨fun p r b => fetch_transient_exhausts p r b, ?_, ?_, ?_, ?_⟩
  · intro outcomes
    induction outcomes with
    | nil => intro p r b; simp [fetch_from_youtube_api]
    | cons o rest ih =>
      intro p r b
      cases o with
      | ok hasItems => simp [fetch_ok_cons]
      | quotaErr =>
        cases hsw : switch_to_next_key p with
        | mk p' okSw =>
          cases okSw with
          | true => rw [fetch_quota_cons, hsw]; exact ih p' r b
          | false => rw [fetch_quota_cons, hsw]; simp
      | transientErr =>
        by_cases hr : r = 0
        · simp [fetch_transient_cons, hr]
        · have := ih p (r - 1) (min 2 (2 * b))
          rw [fetch_transient_cons]
          simp only [hr, if_false, List.length_cons]
          omega
  · norm_num [backoffSeq]
  · intro b k
    induction k generalizing b with
    | zero => intro _ x hx; simp [backoffSeq] at hx
    | succ k ih =>
      intro hb x hx
      rw [backoffSeq] at hx
      rcases List.mem_cons.mp hx with rfl | hx
      · exact hb
      · exact ih (min 2 (2 * b)) (min_le_left _ _) x hx
  · intro rest p r b p' hsw
    rw [fetch_quota_cons, hsw]

/-- Witness for C4: concrete default parameters. Three straight transient
failures with the default budget `retries = 2` and initial backoff 0.5 s
yield the empty result after sleeping 0.5 s then 1.0 s; a quota error with
a fresh second key re-issues the fetch with the budget intact. -/
theorem c4_transient_retry_policy_witness :
    fetch_from_youtube_api
        (List.replicate 3 FetchOutcome.transientErr) ⟨["a"], 0, ∅⟩ 2 (1 / 2) =
      (FetchRes.empty, [1 / 2, 1], ⟨["a"], 0, ∅⟩) ∧
    fetch_from_youtube_api
        [FetchOutcome.quotaErr, FetchOutcome.ok true] ⟨["a", "b"], 0, ∅⟩ 2
        (1 / 2) =
      fetch_from_youtube_api [FetchOutcome.ok true] ⟨["a", "b"], 1, {0}⟩ 2
        (1 / 2) := by
  constructor
  · have h := c4_transient_retry_policy.1 ⟨["a"], 0, ∅⟩ 2 (1 / 2)
    rw [h]
    norm_num [backoffSeq]
  · exact c4_transient_retry_policy.2.2.2.2 [FetchOutcome.ok true]
      ⟨["a", "b"], 0, ∅⟩ 2 (1 / 2) ⟨["a", "b"], 1, {0}⟩ (by decide)

/-- C10: a primary `videos.list` success whose `items` list is empty makes
`fetch_from_youtube_api` return the empty dictionary at once — the same
observable value produced when the transient-retry budget runs out, so a
nonexistent video and a fetch that kept failing are indistinguishable at
the public interface. -/
theorem c10_empty_items_indistinguishable :
    (∀ rest p r b,
      fetch_from_youtube_api (FetchOutcome.ok false :: rest) p r b =
        (FetchRes.empty, [], p)) ∧
    (∀ p r b,
      (fetch_from_youtube_api
          (List.replicate (r + 1) FetchOutcome.transientErr) p r b).1 =
        FetchRes.empty) ∧
    (∀ rest p p' r r' b b',
      (fetch_from_youtube_api (FetchOutcome.ok false :: rest) p r b).1 =
        (fetch_from_youtube_api
            (List.replicate (r' + 1) FetchOutcome.transientErr) p' r' b').1) := by
  have hempty : ∀ (rest : List FetchOutcome) p r b,
      fetch_from_youtube_api (FetchOutcome.ok false :: rest) p r b =
        (FetchRes.empty, [], p) := by
    intro rest p r b
    simp [fetch_ok_cons]
  have hexhaust : ∀ p r b,
      (fetch_from_youtube_api
          (List.replicate (r + 1) FetchOutcome.transientErr) p r b).1 =
        FetchRes.empty := by
    intro p r b
    rw [fetch_transient_exhausts p r b]
  exact ⟨hempty, hexhaust, fun rest p p' r r' b b' => by
    rw [hempty rest p r b, hexhaust p' r' b']⟩

/-- C8: the checkpoint round-trip. Saving any processed set and loading it
back is the identity; the written payload lists the locators sorted and
carries their count; and loading is insensitive to the order of the
serialized list (any permutation reloads to the same set). -/
theorem c8_checkpoint_roundtrip :
    (∀ processed : Finset String,
      load_progress (save_progress processed) = processed) ∧
    (∀ processed : Finset String,
      List.Sorted (· ≤ ·) (save_progress processed).processed_urls ∧
      (save_progress processed).count = processed.card) ∧
    (∀ (l l' : List String) (n n' : Nat), l.Perm l' →
      load_progress ⟨l, n⟩ = load_progress ⟨l', n'⟩) := by
  refine ⟨?_, ?_, ?_⟩
  · intro processed
    exact Finset.sort_toFinset _ processed
  · intro processed
    exact ⟨Finset.sort_sorted _ processed, rfl⟩
  · intro l l' n n' hperm
    exact List.toFinset_eq_of_perm l l' hperm

/-- Witness for C8 at a concrete two-element set (inserted out of order):
the round trip restores the set, and loading the reversed list gives the
same set. -/
theorem c8_checkpoint_roundtrip_witness :
    load_progress (save_progress {"b", "a"}) = {"b", "a"} ∧
    load_progress ⟨["a", "b"], 2⟩ = load_progress ⟨["b", "a"], 0⟩ :=
  ⟨c8_checkpoint_roundtrip.1 {"b", "a"},
    c8_checkpoint_roundtrip.2.2 ["a", "b"] ["b", "a"] 2 0
      (by decide)⟩

/-- C5 counterexample: in `main_yt_dlp.py` the per-batch artifact file is
written even for a batch with zero successes — here a one-item batch whose
fetch returned empty data still produces an artifact, refuting
"a per-batch artifact file is written if and only if the batch's success
count is ≥ 1" as a statement about every scheduler in the program. -/
theorem c5_dlp_zero_success_writes_artifact :
    successCount [⟨"u1", false⟩] = 0 ∧
    ytDlpBatchArtifact 1 [⟨"u1", false⟩] ≠ none := by
  constructor
  · rfl
  · intro h
    simp [ytDlpBatchArtifact] at h

/-- C5 (amended): in the `main_yt_api.py` scheduler the per-batch artifact
is written iff the success count is ≥ 1, and every individually successful
item's locator lands in the checkpoint set regardless of the batch's
artifact decision; the `main_yt_dlp.py` scheduler instead writes an
artifact for every batch, zero-success ones included. -/
theorem c5_artifact_write_policy :
    (∀ (n : Nat) (results : List ItemRes),
      (ytApiBatchArtifact n results).isSome = true ↔
        1 ≤ successCount results) ∧
    (∀ (n : Nat) (results : List ItemRes),
      (ytDlpBatchArtifact n results).isSome = true) ∧
    (∀ (processed : Finset String) (results : List ItemRes) (r : ItemRes),
      r ∈ results → r.ok = true →
        r.url ∈ collectProgress processed results) ∧
    (∀ (processed : Finset String) (results : List ItemRes),
      processed ⊆ collectProgress processed results) := by
  have hmono : ∀ (results : List ItemRes) (processed : Finset String),
      processed ⊆ collectProgress processed results := by
    intro results
    induction results with
    | nil => intro processed; simp [collectProgress]
    | cons r rest ih =>
      intro processed x hx
      show x ∈ collectProgress processed (r :: rest)
      unfold collectProgress
      simp only [List.foldl_cons]
      by_cases hr : r.ok
      · exact ih _ (by simp [hr, Finset.mem_insert_of_mem hx])
      · exact ih _ (by simp [hr, hx])
  refine ⟨?_, ?_, ?_, fun processed results => hmono results processed⟩
  · intro n results
    by_cases h : 0 < successCount results
    · simp [ytApiBatchArtifact, h]
      omega
    · simp [ytApiBatchArtifact, h]
      omega
  · intro n results
    simp [ytDlpBatchArtifact]
  · have hcons : ∀ (processed : Finset String) (r : ItemRes)
        (rest : List ItemRes),
        collectProgress processed (r :: rest) =
          collectProgress
            (if r.ok then insert r.url processed else processed) rest := by
      intro processed r rest
      rfl
    intro processed results
    induction results generalizing processed with
    | nil => intro r hr; simp at hr
    | cons head rest ih =>
      intro r hr hok
      rcases List.mem_cons.mp hr with rfl | hr'
      · rw [hcons, hok, if_pos rfl]
        exact hmono rest _ (Finset.mem_insert_self _ _)
      · rw [hcons]
        exact ih _ r hr' hok

/-- Witness for C5 (amended) at concrete batches: a one-success batch gets
an artifact in both schedulers, the successful URL reaches the checkpoint
set, and the artifact decision for a zero-success batch differs. -/
theorem c5_artifact_write_policy_witness :
    ((ytApiBatchArtifact 3 [⟨"u1", true⟩, ⟨"u2", false⟩]).isSome = true ↔
      1 ≤ successCount [⟨"u1", true⟩, ⟨"u2", false⟩]) ∧
    (ytDlpBatchArtifact 3 [⟨"u1", false⟩]).isSome = true ∧
    "u1" ∈ collectProgress ∅ [⟨"u1", true⟩, ⟨"u2", false⟩] :=
  ⟨c5_artifact_write_policy.1 3 [⟨"u1", true⟩, ⟨"u2", false⟩],
    c5_artifact_write_policy.2.1 3 [⟨"u1", false⟩],
    c5_artifact_write_policy.2.2.1 ∅ [⟨"u1", true⟩, ⟨"u2", false⟩]
      ⟨"u1", true⟩ (by simp) rfl⟩

/-- Any successful match of the (mis-escaped) pattern captures a group
that starts with a literal backslash. -/
lemma matchBatchPattern_capture (l g : List Char)
    (h : matchBatchPattern l = some g) :
    ∃ k, g = '\\' :: List.replicate k 'd' := by
  unfold matchBatchPattern at h
  split at h
  · exact absurd h (by simp)
  · split at h
    · exact absurd h (by simp)
    · split at h
      · split at h
        · exact absurd h (by simp)
        · split at h
          · split at h
            · exact ⟨_, (Option.some.injEq _ _ ▸ h).symm⟩
            · exact absurd h (by simp)
          · exact absurd h (by simp)
      · exact absurd h (by simp)

/-- Rejection fact: `int()` fails on the captured group: it starts with a backslash, not a
digit. -/
lemma parseInt?_backslash (rest : List Char) :
    parseInt? ('\\' :: rest) = none := by
  simp [parseInt?]

/-- C2: the batch-number scan of `main_yt_api.py` is constantly zero — the
pattern `r"batch_(\\d+)\\.json$"` (doubled backslashes inside a raw
string) never matches an ordinary `batch_<k>.json` name, and even a
matching name's captured group cannot parse as an integer — so with
`batch_5.json` on disk the next batch is numbered from 0, not 5; and
`main_yt_dlp.py`'s `get_existing_batches_numbers` raises `ValueError`
(here `Except.error`) on a directory with no batch files instead of
yielding 0. -/
theorem c2_scan_ignores_existing_batches :
    scan_batches_in_dir ["batch_5.json"] = 0 ∧
    (∀ files, scan_batches_in_dir files = 0) ∧
    get_existing_batches_numbers [] =
      Except.error "ValueError: max() arg is an empty sequence" := by
  have hstep : ∀ (maxIdx : Nat) (fname : String),
      (match matchBatchPattern fname.toList with
        | some g =>
            match parseInt? g with
            | some idx => if maxIdx < idx then idx else maxIdx
            | none => maxIdx
        | none => maxIdx) = maxIdx := by
    intro maxIdx fname
    cases hm : matchBatchPattern fname.toList with
    | none => rfl
    | some g =>
      obtain ⟨k, rfl⟩ := matchBatchPattern_capture _ g hm
      show (match parseInt? ('\\' :: List.replicate k 'd') with
            | some idx => if maxIdx < idx then idx else maxIdx
            | none => maxIdx) = maxIdx
      rw [parseInt?_backslash]
  have hall : ∀ files, scan_batches_in_dir files = 0 := by
    intro files
    unfold scan_batches_in_dir
    induction files with
    | nil => rfl
    | cons f rest ih =>
      rw [List.foldl_cons, hstep 0 f]
      exact ih
  exact ⟨hall _, hall, rfl⟩

/-- Every chunk cut by the cap-chunking loop holds at most
`MAX_FILES_PER_COMMIT` files. Fuel-indexed strong induction on the list
length. -/
lemma chunkByCap_mem_le {α : Type} (n : Nat) :
    ∀ l : List α, l.length ≤ n →
      ∀ c ∈ chunkByCap l, c.length ≤ MAX_FILES_PER_COMMIT := by
  induction n with
  | zero =>
    intro l hl c hc
    have hnil : l = [] := List.length_eq_zero.mp (by omega)
    subst hnil
    rw [chunkByCap] at hc
    simp at hc
  | succ n ih =>
    intro l hl c hc
    rw [chunkByCap] at hc
    by_cases hle : l.isEmpty
    · rw [if_pos hle] at hc; simp at hc
    · rw [if_neg hle] at hc
      have hpos : 1 ≤ l.length := by
        cases l with
        | nil => simp at hle
        | cons a as => simp
      rcases List.mem_cons.mp hc with rfl | hc'
      · simp only [List.length_take, MAX_FILES_PER_COMMIT]
        omega
      · exact ih (l.drop MAX_FILES_PER_COMMIT)
          (by simp only [List.length_drop, MAX_FILES_PER_COMMIT]; omega) c hc'

/-- Every commit attempt in the all-rejected cascade is no larger than the
starting chunk. -/
lemma attempts_mem_le {α : Type} (n : Nat) :
    ∀ l : List α, l.length ≤ n →
      ∀ c ∈ singleAttemptsAllRejected l, c.length ≤ l.length := by
  induction n with
  | zero =>
    intro l hl c hc
    have hnil : l = [] := List.length_eq_zero.mp (by omega)
    subst hnil
    rw [singleAttemptsAllRejected] at hc
    simp at hc
    simp [hc]
  | succ n ih =>
    intro l hl c hc
    rw [singleAttemptsAllRejected] at hc
    rcases List.mem_cons.mp hc with rfl | hc'
    · exact le_refl _
    · by_cases hlen : 50 < l.length
      · rw [dif_pos hlen] at hc'
        rcases List.mem_append.mp hc' with hc2 | hc2
        · have := ih (l.take (l.length / 2))
            (by simp only [List.length_take]; omega) c hc2
          simp only [List.length_take] at this
          omega
        · have := ih (l.drop (l.length / 2))
            (by simp only [List.length_drop]; omega) c hc2
          simp only [List.length_drop] at this
          omega
      · rw [dif_neg hlen] at hc'
        obtain ⟨f, hf, rfl⟩ := List.mem_map.mp hc'
        have : 1 ≤ l.length := List.length_pos.mpr (List.ne_nil_of_mem hf)
        simpa using this

/-- For a nonempty chunk, the all-rejected cascade makes at most
`4·len − 1` commit attempts. -/
lemma attempts_len_pos {α : Type} (n : Nat) :
    ∀ l : List α, l.length ≤ n → 1 ≤ l.length →
      (singleAttemptsAllRejected l).length ≤ 4 * l.length - 1 := by
  induction n with
  | zero => intro l hl hpos; omega
  | succ n ih =>
    intro l hl hpos
    rw [singleAttemptsAllRejected]
    by_cases hlen : 50 < l.length
    · rw [dif_pos hlen]
      have hmid : 1 ≤ l.length / 2 := by omega
      have h1 := ih (l.take (l.length / 2))
        (by simp only [List.length_take]; omega)
        (by simp only [List.length_take]; omega)
      have h2 := ih (l.drop (l.length / 2))
        (by simp only [List.length_drop]; omega)
        (by simp only [List.length_drop]; omega)
      simp only [List.length_take, List.length_drop] at h1 h2
      simp only [List.length_cons, List.length_append]
      omega
    · rw [dif_neg hlen]
      simp only [List.length_cons, List.length_map]
      omega

/-- C7: the uploader's commit sizes and its file-count-rejection recursion.
`upload_metadata_batch` never hands a commit larger than
`MAX_FILES_PER_COMMIT = 300` to the single-commit path; a rejected chunk of
more than 50 files is retried only as its two strictly smaller halves
(which concatenate back to the chunk); a rejected chunk of at most 50
files falls back to one commit per record; every attempt in the cascade is
bounded by the original chunk size; and the whole cascade is finite — at
most `4·len + 1` commit attempts for a chunk of `len` files. -/
theorem c7_split_terminates_and_caps :
    (∀ (l : List Nat), ∀ c ∈ upload_metadata_batch l,
      c.length ≤ MAX_FILES_PER_COMMIT) ∧
    (∀ (l : List Nat), 50 < l.length →
      singleAttemptsAllRejected l =
        l :: (singleAttemptsAllRejected (l.take (l.length / 2)) ++
          singleAttemptsAllRejected (l.drop (l.length / 2))) ∧
      (l.take (l.length / 2)).length < l.length ∧
      (l.drop (l.length / 2)).length < l.length ∧
      l.take (l.length / 2) ++ l.drop (l.length / 2) = l) ∧
    (∀ (l : List Nat), l.length ≤ 50 →
      singleAttemptsAllRejected l = l :: (l.map fun f => [f])) ∧
    (∀ (l : List Nat), ∀ c ∈ singleAttemptsAllRejected l,
      c.length ≤ l.length) ∧
    (∀ (l : List Nat),
      (singleAttemptsAllRejected l).length ≤ 4 * l.length + 1) := by
  refine ⟨?_, ?_, ?_, ?_, ?_⟩
  · intro l c hc
    unfold upload_metadata_batch at hc
    by_cases hle : l.isEmpty
    · rw [if_pos hle] at hc; simp at hc
    · rw [if_neg hle] at hc
      by_cases hbig : MAX_FILES_PER_COMMIT < l.length
      · rw [if_pos hbig] at hc
        exact chunkByCap_mem_le l.length l (le_refl _) c hc
      · rw [if_neg hbig] at hc
        rcases List.mem_singleton.mp hc with rfl
        omega
  · intro l hlen
    refine ⟨?_, ?_, ?_, List.take_append_drop _ l⟩
    · rw [singleAttemptsAllRejected, dif_pos hlen]
    · simp only [List.length_take]; omega
    · simp only [List.length_drop]; omega
  · intro l hlen
    rw [singleAttemptsAllRejected, dif_neg (by omega)]
  · intro l
    exact attempts_mem_le l.length l (le_refl _)
  · intro l
    by_cases hpos : 1 ≤ l.length
    · have := attempts_len_pos l.length l (le_refl _) hpos
      omega
    · have hnil : l = [] := List.length_eq_zero.mp (by omega)
      subst hnil
      rw [singleAttemptsAllRejected]
      simp

/-- Witness for C7 at concrete chunks: a 3-file upload is one commit within
the cap; a 2-file rejected chunk falls back to per-record commits; a
52-file rejected chunk splits into its two halves; and its cascade length
obeys the bound. -/
theorem c7_split_terminates_and_caps_witness :
    ([1, 2, 3] : List Nat).length ≤ MAX_FILES_PER_COMMIT ∧
    singleAttemptsAllRejected ([1, 2] : List Nat) =
      [1, 2] :: ([1, 2].map fun f => [f]) ∧
    singleAttemptsAllRejected (List.range 52) =
      List.range 52 ::
        (singleAttemptsAllRejected ((List.range 52).take ((List.range 52).length / 2)) ++
          singleAttemptsAllRejected ((List.range 52).drop ((List.range 52).length / 2))) ∧
    (singleAttemptsAllRejected (List.range 52)).length ≤
      4 * (List.range 52).length + 1 :=
  ⟨c7_split_terminates_and_caps.1 [1, 2, 3] [1, 2, 3] (by decide),
    c7_split_terminates_and_caps.2.2.1 [1, 2] (by decide),
    (c7_split_terminates_and_caps.2.1 (List.range 52)
      (by simp [List.length_range])).1,
    c7_split_terminates_and_caps.2.2.2.2 (List.range 52)⟩

/-- A concrete, API-consistent upstream: the first comment-thread page has
two threads — the first with one reply — and no continuation; every
replies request returns one reply and no continuation. All responses stay
within the requested `maxResults`. -/
def commentsSvcBug : CommentsService where
  threadPage := fun _ tok =>
    match tok with
    | none => ⟨[⟨1, some "A"⟩, ⟨0, none⟩], none⟩
    | some _ => ⟨[], none⟩
  repliesPage := fun _ _ _ => ⟨[()], none⟩

/-- C9: `_fetch_top_comments` with `max_count = 2` on the page above
returns three comments — after the reply sub-fetch fills the list to the
cap, the thread loop appends the next top-level comment before any length
check, overshooting the documented "up to `max_count`" bound. The
`max_count <= 0` fast path, by contrast, does hold: empty list, no request
issued, no quota consumed. -/
theorem c9_comment_cap_overshoot :
    fetch_top_comments commentsSvcBug 2 10 =
      ([Comment.topLevel, Comment.reply, Comment.topLevel], 2) ∧
    ¬((fetch_top_comments commentsSvcBug 2 10).1.length ≤ 2) ∧
    (∀ (svc : CommentsService) (maxCount : Int) (fuel : Nat), maxCount ≤ 0 →
      fetch_top_comments svc maxCount fuel = ([], 0)) := by
  refine ⟨rfl, by decide, ?_⟩
  intro svc maxCount fuel h
  unfold fetch_top_comments
  rw [if_pos h]

/-- Witness for C9's fast-path conjunct at a concrete negative cap. -/
theorem c9_comment_cap_overshoot_witness :
    fetch_top_comments commentsSvcBug (-1) 5 = ([], 0) :=
  c9_comment_cap_overshoot.2.2 commentsSvcBug (-1) 5 (by decide)

end Dop
